import Mathlib

/-!
Verification development for the `py_web_miner` scraping module.

Python text is modelled as `List Char` (named `Str` below).  Pure functions of
`src/py_web_miner/scraping.py` are translated into executable Lean definitions;
behaviour of external collaborators (the `requests` library, the Selenium web
driver, Python's `re.sub`, and BeautifulSoup's `html.parser` backend) is
modelled by small executable definitions whose doc comments state exactly which
external behaviour they capture.
-/

namespace PyWebMiner

/-- Python strings, modelled as lists of characters. -/
abbrev Str := List Char

/-- Convert a Lean string literal into the `Str` model. -/
def str (s : String) : Str := s.toList

/-- `startsWith pre s` models Python `s.startswith(pre)`. -/
def startsWith : Str → Str → Bool
  | [], _ => true
  | _ :: _, [] => false
  | p :: ps, c :: cs => (p == c) && startsWith ps cs

/-- `containsSub needle hay` models the Python substring test `needle in hay`. -/
def containsSub (needle : Str) : Str → Bool
  | [] => startsWith needle []
  | c :: rest => startsWith needle (c :: rest) || containsSub needle rest

/-- `pySplit sep s` models Python `s.split(sep)` for a one-character separator. -/
def pySplit (sep : Char) : Str → List Str
  | [] => [[]]
  | c :: rest =>
    let r := pySplit sep rest
    if c == sep then
      [] :: r
    else
      match r with
      | [] => [[c]]
      | h :: t => (c :: h) :: t

/-!
### The whitespace-collapse step of `BaseScraper._process_text`

The three `re.sub` calls of `_process_text` use patterns (`\n{5,}`, `\n{4}`,
`\n{2,3}`) that match only newline characters, so each substitution acts
independently on every maximal run of newlines and leaves all other characters
unchanged.  `mapRunsGo f n s` rewrites each maximal run of `k` newlines into
`f k` newlines (`n` is the count of pending newlines already scanned); the three
run-length transformations below are the exact effect of Python's left-to-right
non-overlapping greedy matching on a run of `k` newlines.
-/

/-- Emit a pending newline run of length `n`, rewritten to length `f n`
(nothing is emitted when no run is pending). -/
def emitRun (f : Nat → Nat) (n : Nat) : Str :=
  if n = 0 then [] else List.replicate (f n) '\n'

/-- Rewrite every maximal run of `k` newlines into `f k` newlines, keeping all
other characters; `n` counts the newlines of the run currently being scanned. -/
def mapRunsGo (f : Nat → Nat) : Nat → Str → Str
  | n, [] => emitRun f n
  | n, c :: rest =>
    if c = '\n' then
      mapRunsGo f (n + 1) rest
    else
      emitRun f n ++ c :: mapRunsGo f 0 rest

/-- Rewrite every maximal run of `k` newlines into `f k` newlines. -/
def mapRuns (f : Nat → Nat) (s : Str) : Str := mapRunsGo f 0 s

/-- Run-length effect of `re.sub("\n{5,}", "\n\n\n", ·)`: the greedy match
swallows a whole run of `k ≥ 5` newlines and replaces it by 3. -/
def runSub5plus (k : Nat) : Nat := if 5 ≤ k then 3 else k

/-- Run-length effect of `re.sub("\n{4}", "\n\n", ·)`: left-to-right
non-overlapping matching replaces each block of 4 newlines by 2. -/
def runSub4 (k : Nat) : Nat := 2 * (k / 4) + k % 4

/-- Run-length effect of `re.sub("\n{2,3}", "\n", ·)`: greedy left-to-right
matching replaces each block of 3 (finally 2) newlines by 1. -/
def runSub2to3 (k : Nat) : Nat := k / 3 + min (k % 3) 1

/-- First substitution of `BaseScraper._process_text`. -/
def reSubNL5plus (s : Str) : Str := mapRuns runSub5plus s

/-- Second substitution of `BaseScraper._process_text`. -/
def reSubNL4 (s : Str) : Str := mapRuns runSub4 s

/-- Third substitution of `BaseScraper._process_text`. -/
def reSubNL2to3 (s : Str) : Str := mapRuns runSub2to3 s

/-- `BaseScraper._process_text`: the three newline-collapsing substitutions,
applied in the order of the source. -/
def process_text (s : Str) : Str := reSubNL2to3 (reSubNL4 (reSubNL5plus s))

/-- A string containing no newline character. -/
def noNewline (s : Str) : Prop := ∀ c ∈ s, c ≠ '\n'

instance (s : Str) : Decidable (noNewline s) :=
  inferInstanceAs (Decidable (∀ c ∈ s, c ≠ '\n'))

/-!
### HTML document model

The scraper delegates parsing to BeautifulSoup with the `html.parser` backend
(an external collaborator).  The definitions below model that collaborator for
the markup shapes the module handles: a parse tree of element and text nodes,
a tokenizer for tags with double-quoted attributes, and the stack-based tree
builder of `html.parser` (unmatched close tags ignored, remaining open tags
closed at end of input, tag and attribute names lowercased, no implicit
`<html>`/`<body>` insertion).
-/

mutual
/-- A node of the parse tree: a text node or an element with attributes. -/
inductive Node where
  | text (s : Str) : Node
  | elem (name : Str) (attrs : List (Str × Str)) (children : NodeList) : Node

/-- The children of an element, as a self-contained list type. -/
inductive NodeList where
  | nil : NodeList
  | cons (n : Node) (ns : NodeList) : NodeList
end

/-- Append two child lists. -/
def NodeList.append : NodeList → NodeList → NodeList
  | .nil, ys => ys
  | .cons x xs, ys => .cons x (NodeList.append xs ys)

/-- Add one node at the end of a child list. -/
def nlSnoc (xs : NodeList) (n : Node) : NodeList := xs.append (.cons n .nil)

/-- A lexical token of the markup. -/
inductive Token where
  | tagOpen (name : Str) (attrs : List (Str × Str)) : Token
  | tagClose (name : Str) : Token
  | chunk (s : Str) : Token

/-- Read characters until the predicate holds, returning the prefix read and
the rest of the input. -/
def readUntil (stop : Char → Bool) : Str → Str × Str
  | [] => ([], [])
  | c :: rest =>
    if stop c then
      ([], c :: rest)
    else
      let p := readUntil stop rest
      (c :: p.1, p.2)

/-- Lowercase every character (html.parser lowercases tag/attribute names). -/
def lowerStr (s : Str) : Str := s.map Char.toLower

/-- Read the attributes of an open tag up to and including the closing `>`;
values are double-quoted, bare attribute names get an empty value.  The fuel
argument bounds the recursion by the input length. -/
def readAttrs : Nat → Str → List (Str × Str) × Str
  | 0, s => ([], s)
  | _ + 1, [] => ([], [])
  | fuel + 1, c :: rest =>
    if c == '>' then
      ([], rest)
    else if c == ' ' || c == '/' then
      readAttrs fuel rest
    else
      let p := readUntil (fun d => d == '=' || d == '>' || d == ' ' || d == '/') (c :: rest)
      match p.2 with
      | '=' :: '"' :: r2 =>
        let q := readUntil (fun d => d == '"') r2
        let r4 := match q.2 with
          | _ :: t => t
          | [] => []
        let a := readAttrs fuel r4
        ((lowerStr p.1, q.1) :: a.1, a.2)
      | r1 =>
        let a := readAttrs fuel r1
        ((lowerStr p.1, []) :: a.1, a.2)

/-- Tokenize markup into open tags, close tags and text chunks.  The fuel
argument bounds the recursion by the input length. -/
def tokenize : Nat → Str → List Token
  | 0, _ => []
  | _ + 1, [] => []
  | fuel + 1, '<' :: '/' :: rest =>
    let p := readUntil (fun d => d == '>') rest
    let r2 := match p.2 with
      | _ :: t => t
      | [] => []
    Token.tagClose (lowerStr p.1) :: tokenize fuel r2
  | fuel + 1, '<' :: rest =>
    let p := readUntil (fun d => d == '>' || d == ' ' || d == '/') rest
    let a := readAttrs fuel p.2
    Token.tagOpen (lowerStr p.1) a.1 :: tokenize fuel a.2
  | fuel + 1, c :: rest =>
    let p := readUntil (fun d => d == '<') (c :: rest)
    Token.chunk p.1 :: tokenize fuel p.2

/-- An element still being built: its name, attributes and children so far. -/
structure Frame where
  fname : Str
  fattrs : List (Str × Str)
  fchildren : NodeList

/-- Turn a finished frame into an element node. -/
def mkElem (f : Frame) : Node := Node.elem f.fname f.fattrs f.fchildren

/-- Attach a finished node to the innermost open element, or to the document
roots when no element is open. -/
def insertNode (n : Node) (stack : List Frame) (roots : List Node) :
    List Frame × List Node :=
  match stack with
  | [] => ([], roots ++ [n])
  | f :: fs => (⟨f.fname, f.fattrs, nlSnoc f.fchildren n⟩ :: fs, roots)

/-- Is some open element on the stack named `name`? -/
def containsFrame (name : Str) : List Frame → Bool
  | [] => false
  | f :: fs => f.fname == name || containsFrame name fs

/-- Close open elements from the inside out until one named `name` has been
closed, threading the most recently closed node downward. -/
def closeUntilGo (name : Str) (pending : Node) :
    List Frame → List Node → List Frame × List Node
  | [], roots => ([], roots ++ [pending])
  | g :: gs, roots =>
    let node := Node.elem g.fname g.fattrs (nlSnoc g.fchildren pending)
    if g.fname == name then
      insertNode node gs roots
    else
      closeUntilGo name node gs roots

/-- Handle a close tag: html.parser ignores it when no matching element is
open, otherwise closes elements up to and including the matching one. -/
def handleCloseTag (name : Str) (stack : List Frame) (roots : List Node) :
    List Frame × List Node :=
  if containsFrame name stack then
    match stack with
    | [] => (stack, roots)
    | f :: fs =>
      if f.fname == name then
        insertNode (mkElem f) fs roots
      else
        closeUntilGo name (mkElem f) fs roots
  else
    (stack, roots)

/-- HTML void elements, which never take children. -/
def isVoidTag (name : Str) : Bool :=
  name == str "br" || name == str "hr" || name == str "img" ||
  name == str "meta" || name == str "input" || name == str "link"

/-- Close every element still open at end of input, innermost first. -/
def finalizeStack (pending : Node) : List Frame → List Node → List Node
  | [], roots => roots ++ [pending]
  | g :: gs, roots =>
    finalizeStack (Node.elem g.fname g.fattrs (nlSnoc g.fchildren pending)) gs roots

/-- Build the forest of document roots from the token stream. -/
def buildDoc : List Token → List Frame → List Node → List Node
  | [], stack, roots =>
    match stack with
    | [] => roots
    | f :: fs => finalizeStack (mkElem f) fs roots
  | t :: ts, stack, roots =>
    match t with
    | .chunk s =>
      let p := insertNode (Node.text s) stack roots
      buildDoc ts p.1 p.2
    | .tagOpen name attrs =>
      if isVoidTag name then
        let p := insertNode (Node.elem name attrs .nil) stack roots
        buildDoc ts p.1 p.2
      else
        buildDoc ts (⟨name, attrs, .nil⟩ :: stack) roots
    | .tagClose name =>
      let p := handleCloseTag name stack roots
      buildDoc ts p.1 p.2

/-- Model of `BeautifulSoup(markup, "html.parser")`: the forest of parsed
document roots. -/
def parseHtml (s : Str) : List Node := buildDoc (tokenize (s.length + 1) s) [] []

mutual
/-- First element named `name` in a subtree, in document (pre-)order; models
BeautifulSoup attribute access such as `tree.body`. -/
def findNode (name : Str) : Node → Option Node
  | .text _ => none
  | .elem n a cs => if n == name then some (Node.elem n a cs) else findNL name cs

/-- First element named `name` in a child list, in document order. -/
def findNL (name : Str) : NodeList → Option Node
  | .nil => none
  | .cons x xs =>
    match findNode name x with
    | some r => some r
    | none => findNL name xs
end

/-- First element named `name` among the document roots, in document order. -/
def findDoc (name : Str) : List Node → Option Node
  | [] => none
  | n :: ns =>
    match findNode name n with
    | some r => some r
    | none => findDoc name ns

mutual
/-- Every element named `name` in a subtree, in document (pre-)order; models
`tree.find_all(name)` / `tag.select(name)`. -/
def findAllNode (name : Str) : Node → List Node
  | .text _ => []
  | .elem n a cs =>
    (if n == name then [Node.elem n a cs] else []) ++ findAllNL name cs

/-- Every element named `name` in a child list, in document order. -/
def findAllNL (name : Str) : NodeList → List Node
  | .nil => []
  | .cons x xs => findAllNode name x ++ findAllNL name xs
end

/-- Every element named `name` among the document roots, in document order. -/
def findAllDoc (name : Str) : List Node → List Node
  | [] => []
  | n :: ns => findAllNode name n ++ findAllDoc name ns

mutual
/-- Remove every element named `name` with its whole subtree; models calling
`tag.decompose()` on every element `tag.select(name)` returned. -/
def removeTagNode (name : Str) : Node → Node
  | .text s => .text s
  | .elem n a cs => .elem n a (removeTagNL name cs)

/-- Remove every element named `name` from a child list, recursively. -/
def removeTagNL (name : Str) : NodeList → NodeList
  | .nil => .nil
  | .cons x xs =>
    match x with
    | .text s => .cons (.text s) (removeTagNL name xs)
    | .elem n a cs =>
      if n == name then
        removeTagNL name xs
      else
        .cons (.elem n a (removeTagNL name cs)) (removeTagNL name xs)
end

mutual
/-- Concatenation of all text nodes of a subtree, in document order; models
`tag.get_text()`. -/
def getTextNode : Node → Str
  | .text s => s
  | .elem _ _ cs => getTextNL cs

/-- Concatenation of all text nodes below a child list. -/
def getTextNL : NodeList → Str
  | .nil => []
  | .cons x xs => getTextNode x ++ getTextNL xs
end

/-- First value bound to `key` in an attribute list. -/
def lookupAttr (key : Str) : List (Str × Str) → Option Str
  | [] => none
  | (k, v) :: rest => if k == key then some v else lookupAttr key rest

/-- Models `tag.get(key)`: the attribute value, or `None` for text nodes and
elements without that attribute. -/
def getAttr (key : Str) : Node → Option Str
  | .text _ => none
  | .elem _ attrs _ => lookupAttr key attrs

/-- Spaces of one prettify indentation level per tree depth. -/
def indentSp (n : Nat) : Str := List.replicate n ' '

/-- Serialize an attribute list as ` key="value"` pairs. -/
def renderAttrs : List (Str × Str) → Str
  | [] => []
  | (k, v) :: rest => ' ' :: (k ++ ('=' :: '"' :: v ++ ('"' :: renderAttrs rest)))

mutual
/-- Lines of BeautifulSoup's `prettify()` re-serialization of one node: each
tag and each string on its own line, indented one space per depth. -/
def prettyNode (depth : Nat) : Node → List Str
  | .text s => [indentSp depth ++ s]
  | .elem n a cs =>
    (indentSp depth ++ ('<' :: (n ++ renderAttrs a ++ ['>'])))
      :: (prettyNL (depth + 1) cs ++ [indentSp depth ++ ('<' :: '/' :: (n ++ ['>']))])

/-- Lines of `prettify()` for a child list. -/
def prettyNL (depth : Nat) : NodeList → List Str
  | .nil => []
  | .cons x xs => prettyNode depth x ++ prettyNL depth xs
end

/-- Lines of `prettify()` for the document roots. -/
def prettyDoc : List Node → List Str
  | [] => []
  | n :: ns => prettyNode 0 n ++ prettyDoc ns

/-- Join lines with single newlines. -/
def joinLines : List Str → Str
  | [] => []
  | [l] => l
  | l :: ls => l ++ '\n' :: joinLines ls

/-!
### The operations of `BaseScraper` and its two subclasses
-/

/-- `BaseScraper.format`: parse and re-serialize with `prettify()`. -/
def format (html_body : Str) : Str := joinLines (prettyDoc (parseHtml html_body))

/-- `BaseScraper.extract_text`: parse; return `""` when the tree has no body
element; otherwise decompose every `script` and every `style` subtree of the
body, take the body's text content and collapse newline runs with
`_process_text`. -/
def extract_text (html_body : Str) : Str :=
  match findDoc (str "body") (parseHtml html_body) with
  | none => []
  | some bodyTag =>
    process_text (getTextNode (removeTagNode (str "style")
      (removeTagNode (str "script") bodyTag)))

/-- The anchor-collection loop of `BaseScraper.extract_links`: keep
`tag.get("href")` when it is truthy (non-`None`, non-empty) and starts with
`"http"`. -/
def collectLinks : List Node → List Str
  | [] => []
  | tagNode :: rest =>
    match getAttr (str "href") tagNode with
    | some link =>
      if (link != []) && startsWith (str "http") link then
        link :: collectLinks rest
      else
        collectLinks rest
    | none => collectLinks rest

/-- `BaseScraper.extract_links`: parse, walk every `<a>` element in document
order and collect qualifying `href` values. -/
def extract_links (html_body : Str) : List Str :=
  collectLinks (findAllDoc (str "a") (parseHtml html_body))

/-- Modelled from the spec (§4.4 `extractLinks`), for comparison with
`extract_links`: the `href` attribute of every anchor element, in document
order, keeping only values beginning with `http`, without deduplication. -/
def linksSpec (html_body : Str) : List Str :=
  ((findAllDoc (str "a") (parseHtml html_body)).filterMap (getAttr (str "href"))).filter
    (fun l => startsWith (str "http") l)

/-!
### Page acquisition, session lifecycle and construction
-/

/-- The error kinds of the spec's taxonomy raised by the modelled code paths
(`ValueError` at construction, `AttributeError` from the started-session
guard). -/
inductive ScrapeError where
  | configError : ScrapeError
  | stateError : ScrapeError
deriving DecidableEq

/-- An HTTP response as seen by `RequestsScraper.retrieve_html`: the final
status code and the decoded body text. -/
structure HttpResponse where
  status_code : Nat
  text : Str
deriving DecidableEq

/-- What a call to `RequestsScraper.retrieve_html` does with a response:
return an HTML string, raise `requests.HTTPError` with the status code, or
fall off the end of the function returning Python `None`. -/
inductive FetchOutcome where
  | html (body : Str) : FetchOutcome
  | httpError (code : Nat) : FetchOutcome
  | noneReturn : FetchOutcome
deriving DecidableEq

/-- Models `requests.Response.raise_for_status()` (external collaborator): it
raises `requests.HTTPError` exactly for status codes 400–599 and otherwise
does nothing, after which the surrounding function returns `None`. -/
def raiseForStatus (code : Nat) : FetchOutcome :=
  if 400 ≤ code ∧ code < 600 then .httpError code else .noneReturn

/-- `requests.codes.ok` (external constant). -/
def requestsCodesOk : Nat := 200

/-- The minimal `<html><body>…</body></html>` envelope literal built by
`RequestsScraper.retrieve_html` around a non-HTML-looking body. -/
def wrapEnvelope (cont : Str) : Str :=
  str "<html>\n  <body>\n" ++ cont ++ str "\n  </body>\n</html>"

/-- Response handling of `RequestsScraper.retrieve_html`: on status
`requests.codes.ok` return the body, wrapped in the envelope when it contains
neither `"<html>"` nor `"<body"`; on any other status defer to
`raise_for_status()`.  (The source's `if not cont: cont = ""` rebinding is a
no-op on strings and is dropped.) -/
def requests_retrieve_html (resp : HttpResponse) : FetchOutcome :=
  if resp.status_code = requestsCodesOk then
    let cont := resp.text
    if !containsSub (str "<html>") cont && !containsSub (str "<body") cont then
      .html (wrapEnvelope cont)
    else
      .html cont
  else
    raiseForStatus resp.status_code

/-- `SeleniumScraper.retrieve_html` as a function of the page source the web
driver reports: the source returns `self.format(page_source)`. -/
def selenium_retrieve_html (page_source : Str) : Str := format page_source

/-- The lifecycle-relevant state of a scraper: the `web_driver` field, `None`
until `start()` and again after `quit()`. -/
structure SessionState where
  web_driver : Option Unit
deriving DecidableEq

/-- `BaseScraper.__init__` leaves `web_driver = None`. -/
def initSession : SessionState := ⟨none⟩

/-- `start()` binds a live fetch mechanism to `web_driver`. -/
def startSession (_ : SessionState) : SessionState := ⟨some ()⟩

/-- `quit()` under `check_web_driver_decorator`: fails when `web_driver` is
`None`, otherwise releases the mechanism and resets `web_driver` to `None`. -/
def quitSession (s : SessionState) : Except ScrapeError SessionState :=
  match s.web_driver with
  | none => .error .stateError
  | some _ => .ok ⟨none⟩

/-- `retrieve_html` under `check_web_driver_decorator`: fails when
`web_driver` is `None`, otherwise proceeds to the response handling. -/
def guardedRetrieveHtml (s : SessionState) (resp : HttpResponse) :
    Except ScrapeError FetchOutcome :=
  match s.web_driver with
  | none => .error .stateError
  | some _ => .ok (requests_retrieve_html resp)

/-- The constructor arguments of `BaseScraper.__init__` that the claims
exercise. -/
structure InitArgs where
  user_agent : Option Str
  screen_resolution : Option Str
  random_user_agent_flag : Bool
  random_screen_resolution_flag : Bool
  proxy : Option Str
deriving DecidableEq

/-- The identity-bearing fields of a constructed `BaseScraper`. -/
structure BaseScraperState where
  user_agent : Option Str
  screen_resolution : Option Str
  random_user_agent_flag : Bool
  random_screen_resolution_flag : Bool
  proxy : Option Str
  web_driver : Option Unit
deriving DecidableEq

/-- `BaseScraper.refresh_user_agent`, with the weighted random draw from the
user-agent catalog (external randomness) passed in as `sampled`. -/
def refresh_user_agent (sampled : Str) (s : BaseScraperState) : BaseScraperState :=
  ⟨some sampled, s.screen_resolution, s.random_user_agent_flag,
    s.random_screen_resolution_flag, s.proxy, s.web_driver⟩

/-- `BaseScraper.refresh_screen_resolution`, with the uniform random draw from
the resolution catalog (external randomness) passed in as `sampled`. -/
def refresh_screen_resolution (sampled : Str) (s : BaseScraperState) : BaseScraperState :=
  ⟨s.user_agent, some sampled, s.random_user_agent_flag,
    s.random_screen_resolution_flag, s.proxy, s.web_driver⟩

/-- The proxy validity test of `BaseScraper.__init__`:
`proxy and len(proxy.split(":")) != 2` — an empty (falsy) proxy string skips
the check. -/
def proxyInvalid : Option Str → Bool
  | none => false
  | some p => decide (p ≠ []) && decide ((pySplit ':' p).length ≠ 2)

/-- `BaseScraper.__init__`: store the arguments, validate the proxy, then
overwrite the user agent and the screen resolution with sampled values when
the corresponding randomize flag is set; `web_driver` stays `None`. -/
def baseScraperInit (sampledUA sampledRes : Str) (a : InitArgs) :
    Except ScrapeError BaseScraperState :=
  if proxyInvalid a.proxy then
    .error .configError
  else
    let s0 : BaseScraperState :=
      ⟨a.user_agent, a.screen_resolution, a.random_user_agent_flag,
        a.random_screen_resolution_flag, a.proxy, none⟩
    let s1 := if a.random_user_agent_flag then refresh_user_agent sampledUA s0 else s0
    let s2 := if a.random_screen_resolution_flag then refresh_screen_resolution sampledRes s1 else s1
    .ok s2

/-!
### Lemmas about the newline-collapse machinery
-/

theorem mapRunsGo_nil (f : Nat → Nat) (n : Nat) : mapRunsGo f n [] = emitRun f n := rfl

theorem mapRunsGo_cons_nl (f : Nat → Nat) (n : Nat) (rest : Str) :
    mapRunsGo f n ('\n' :: rest) = mapRunsGo f (n + 1) rest := by
  simp [mapRunsGo]

theorem mapRunsGo_cons (f : Nat → Nat) (n : Nat) (c : Char) (rest : Str) (hc : c ≠ '\n') :
    mapRunsGo f n (c :: rest) = emitRun f n ++ c :: mapRunsGo f 0 rest := by
  simp [mapRunsGo, hc]

theorem emitRun_zero (f : Nat → Nat) : emitRun f 0 = [] := rfl

theorem emitRun_pos (f : Nat → Nat) (n : Nat) (h : n ≠ 0) :
    emitRun f n = List.replicate (f n) '\n' := by
  simp [emitRun, h]

theorem emitRun_ext {f g : Nat → Nat} (h : ∀ n, 1 ≤ n → f n = g n) (m : Nat) :
    emitRun f m = emitRun g m := by
  rcases Nat.eq_zero_or_pos m with hm | hm
  · simp [hm, emitRun]
  · rw [emitRun_pos f m (by omega), emitRun_pos g m (by omega), h m hm]

theorem mapRunsGo_replicate (f : Nat → Nat) :
    ∀ (k m : Nat) (t : Str),
      mapRunsGo f m (List.replicate k '\n' ++ t) = mapRunsGo f (m + k) t := by
  intro k
  induction k with
  | zero => intro m t; simp
  | succ k ih =>
    intro m t
    rw [List.replicate_succ, List.cons_append, mapRunsGo_cons_nl, ih (m + 1) t]
    have h : m + 1 + k = m + (k + 1) := by omega
    rw [h]

theorem mapRunsGo_ext {f g : Nat → Nat} (h : ∀ n, 1 ≤ n → f n = g n) :
    ∀ (l : Str) (m : Nat), mapRunsGo f m l = mapRunsGo g m l := by
  intro l
  induction l with
  | nil =>
    intro m
    rw [mapRunsGo_nil, mapRunsGo_nil, emitRun_ext h m]
  | cons c rest ih =>
    intro m
    by_cases hc : c = '\n'
    · subst hc
      rw [mapRunsGo_cons_nl, mapRunsGo_cons_nl, ih]
    · rw [mapRunsGo_cons f m c rest hc, mapRunsGo_cons g m c rest hc, ih 0,
        emitRun_ext h m]

theorem mapRunsGo_comp {f g : Nat → Nat} (hg : ∀ n, 1 ≤ n → 1 ≤ g n) :
    ∀ (l : Str) (m : Nat),
      mapRunsGo f 0 (mapRunsGo g m l) = mapRunsGo (fun n => f (g n)) m l := by
  intro l
  induction l with
  | nil =>
    intro m
    rw [mapRunsGo_nil, mapRunsGo_nil]
    rcases Nat.eq_zero_or_pos m with hm | hm
    · simp [hm, emitRun, mapRunsGo_nil]
    · rw [emitRun_pos g m (by omega), emitRun_pos (fun n => f (g n)) m (by omega)]
      have h1 := mapRunsGo_replicate f (g m) 0 []
      rw [List.append_nil] at h1
      rw [h1, Nat.zero_add, mapRunsGo_nil,
        emitRun_pos f (g m) (by have := hg m hm; omega)]
  | cons c rest ih =>
    intro m
    by_cases hc : c = '\n'
    · subst hc
      rw [mapRunsGo_cons_nl, mapRunsGo_cons_nl, ih (m + 1)]
    · rw [mapRunsGo_cons g m c rest hc, mapRunsGo_cons (fun n => f (g n)) m c rest hc]
      rcases Nat.eq_zero_or_pos m with hm | hm
      · subst hm
        rw [emitRun_zero, emitRun_zero, List.nil_append, List.nil_append,
          mapRunsGo_cons f 0 c _ hc, emitRun_zero, List.nil_append, ih 0]
      · rw [emitRun_pos g m (by omega),
          mapRunsGo_replicate f (g m) 0 (c :: mapRunsGo g 0 rest), Nat.zero_add,
          mapRunsGo_cons f (g m) c _ hc, ih 0,
          emitRun_pos f (g m) (by have := hg m hm; omega),
          emitRun_pos (fun n => f (g n)) m (by omega)]

theorem runSub5plus_pos : ∀ n, 1 ≤ n → 1 ≤ runSub5plus n := by
  intro n hn
  simp only [runSub5plus]
  split <;> omega

theorem runSub4_pos : ∀ n, 1 ≤ n → 1 ≤ runSub4 n := by
  intro n hn
  simp only [runSub4]
  omega

theorem runSub_comp_eq_one : ∀ n, 1 ≤ n → runSub2to3 (runSub4 (runSub5plus n)) = 1 := by
  intro n hn
  by_cases h5 : 5 ≤ n
  · rw [runSub5plus, if_pos h5]
    decide
  · have h : n = 1 ∨ n = 2 ∨ n = 3 ∨ n = 4 := by omega
    rcases h with h | h | h | h <;> subst h <;> decide

/-- The net effect of the three substitutions of `_process_text`: every
maximal newline run, of any length, collapses to a single newline. -/
theorem process_text_eq_collapse (s : Str) : process_text s = mapRuns (fun _ => 1) s := by
  unfold process_text reSubNL2to3 reSubNL4 reSubNL5plus mapRuns
  rw [mapRunsGo_comp runSub4_pos, mapRunsGo_comp runSub5plus_pos]
  exact mapRunsGo_ext (fun n hn => runSub_comp_eq_one n hn) s 0

theorem mapRunsGo_noNewline_append {a : Str} (ha : noNewline a) (f : Nat → Nat) (t : Str) :
    mapRunsGo f 0 (a ++ t) = a ++ mapRunsGo f 0 t := by
  induction a with
  | nil => simp
  | cons c a ih =>
    have hc : c ≠ '\n' := ha c (List.mem_cons_self c a)
    have ha' : noNewline a := fun d hd => ha d (List.mem_cons_of_mem c hd)
    rw [List.cons_append, mapRunsGo_cons f 0 c _ hc, emitRun_zero, List.nil_append,
      ih ha', List.cons_append]

theorem mapRunsGo_noNewline_id {b : Str} (hb : noNewline b) (f : Nat → Nat) :
    mapRunsGo f 0 b = b := by
  have h := mapRunsGo_noNewline_append hb f []
  rw [List.append_nil, mapRunsGo_nil, emitRun_zero, List.append_nil] at h
  exact h

theorem mapRunsGo_pos_noNewline {b : Str} (hb : noNewline b) (f : Nat → Nat) (m : Nat) :
    mapRunsGo f m b = emitRun f m ++ b := by
  cases b with
  | nil => rw [mapRunsGo_nil, List.append_nil]
  | cons c b' =>
    have hc : c ≠ '\n' := hb c (List.mem_cons_self c b')
    have hb' : noNewline b' := fun d hd => hb d (List.mem_cons_of_mem c hd)
    rw [mapRunsGo_cons f m c b' hc, mapRunsGo_noNewline_id hb' f]

/-- `_process_text` sends a maximal newline run of any positive length,
between newline-free surroundings, to exactly one newline. -/
theorem process_text_run (a b : Str) (n : Nat) (ha : noNewline a) (hb : noNewline b)
    (hn : 1 ≤ n) :
    process_text (a ++ List.replicate n '\n' ++ b) = a ++ '\n' :: b := by
  rw [process_text_eq_collapse]
  unfold mapRuns
  rw [List.append_assoc, mapRunsGo_noNewline_append ha,
    mapRunsGo_replicate _ n 0 b, Nat.zero_add,
    mapRunsGo_pos_noNewline hb _ n, emitRun_pos _ n (by omega),
    List.replicate_one, List.singleton_append]

/-!
### Lemmas about link collection
-/

theorem startsWith_http_nil : startsWith (str "http") ([] : Str) = false := rfl

theorem cons_bne_nil (c : Char) (t : Str) : ((c :: t : Str) != []) = true := rfl

/-- The collection loop of `extract_links` agrees with filtering the `href`
values of the found anchors by the `http` test: the loop's extra truthiness
check is redundant because `startswith` rejects the empty string anyway. -/
theorem collectLinks_eq (ns : List Node) :
    collectLinks ns =
      (ns.filterMap (getAttr (str "href"))).filter (fun l => startsWith (str "http") l) := by
  induction ns with
  | nil => rfl
  | cons n ns ih =>
    cases hA : getAttr (str "href") n with
    | none => simp [collectLinks, hA, List.filterMap_cons, ih]
    | some link =>
      cases link with
      | nil =>
        simp [collectLinks, hA, List.filterMap_cons, List.filter_cons,
          startsWith_http_nil, ih]
      | cons c t =>
        simp only [collectLinks, hA, List.filterMap_cons, List.filter_cons,
          cons_bne_nil, Bool.true_and, ih]

/-!
### The claims
-/

/-- C1, counterexample: on the spec's own example the claimed output
`"Hello\n\n\nWorld"` is wrong — the third substitution collapses the
`"\n\n\n"` left by the first one, so `extract_text` yields `"Hello\nWorld"`. -/
theorem C1_counterexample :
    extract_text (str "<html><body><script>x</script>Hello\n\n\n\n\nWorld</body></html>")
        = str "Hello\nWorld" ∧
      extract_text (str "<html><body><script>x</script>Hello\n\n\n\n\nWorld</body></html>")
        ≠ str "Hello\n\n\nWorld" := by
  constructor
  · decide
  · decide

/-- C1, amended: after the three collapse rules are applied in the fixed
source order, every run of 5 or more newlines in the extracted body text
appears in the final output as exactly one newline (the first rule leaves 3
newlines, which the third rule then collapses to 1); in particular the
example HTML yields `"Hello\nWorld"`. -/
theorem C1_amended :
    (∀ (a b : Str) (n : Nat), noNewline a → noNewline b → 5 ≤ n →
      process_text (a ++ List.replicate n '\n' ++ b) = a ++ '\n' :: b) ∧
    extract_text (str "<html><body><script>x</script>Hello\n\n\n\n\nWorld</body></html>")
      = str "Hello\nWorld" := by
  constructor
  · intro a b n ha hb hn
    exact process_text_run a b n ha hb (by omega)
  · decide

/-- C1, witness for the amended theorem at `a = "Hello"`, `n = 5`,
`b = "World"`. -/
theorem C1_witness :
    process_text (str "Hello" ++ List.replicate 5 '\n' ++ str "World")
      = str "Hello" ++ '\n' :: str "World" :=
  C1_amended.1 (str "Hello") (str "World") 5 (by decide) (by decide) (by decide)

/-- C2: the claim is right and the code is wrong.  `retrieve_html` compares
the status against `requests.codes.ok` (exactly 200); for success statuses
such as 201 or 204 the `else` branch calls `raise_for_status()`, which does
not raise for a 2xx status, and the function falls off the end returning
`None` — contradicting both the claim and the function's own `-> str`
annotation. -/
theorem C2_success_not_200 :
    requests_retrieve_html ⟨204, []⟩ = FetchOutcome.noneReturn ∧
    requests_retrieve_html ⟨201, str "created"⟩ = FetchOutcome.noneReturn :=
  ⟨rfl, rfl⟩

/-- C3, counterexample: the Selenium strategy does not hand the page source
back as-is — `retrieve_html` returns `self.format(page_source)`, a
parse-and-prettify re-serialization, so `"<p>x</p>"` does not come back
unchanged. -/
theorem C3_counterexample :
    selenium_retrieve_html (str "<p>x</p>") ≠ str "<p>x</p>" := by
  decide

/-- C3, amended: `SeleniumScraper.retrieve_html` returns the rendered page
source passed through `format` (parse and prettify re-serialization with
one-space-per-depth indentation), not the raw page source; e.g. `"<p>x</p>"`
comes back as `"<p>\n x\n</p>"`. -/
theorem C3_amended :
    (∀ page_source : Str, selenium_retrieve_html page_source = format page_source) ∧
    selenium_retrieve_html (str "<p>x</p>") = str "<p>\n x\n</p>" := by
  constructor
  · intro page_source
    rfl
  · decide

/-- C4: session-dependent operations are guarded.  On the freshly constructed
state (`web_driver = None`) both `retrieve_html` and `quit` fail with the
state error; `quit` succeeding resets the handle so that every subsequent
guarded call fails; and a guarded `retrieve_html` can only succeed when the
handle is non-empty. -/
theorem C4_session_guard :
    (∀ resp, guardedRetrieveHtml initSession resp = .error .stateError) ∧
    quitSession initSession = .error .stateError ∧
    (∀ s s', quitSession s = .ok s' →
      (∀ resp, guardedRetrieveHtml s' resp = .error .stateError) ∧
      quitSession s' = .error .stateError) ∧
    (∀ s resp r, guardedRetrieveHtml s resp = .ok r → s.web_driver ≠ none) := by
  refine ⟨fun resp => rfl, rfl, ?_, ?_⟩
  · intro s s' h
    cases hw : s.web_driver with
    | none => simp [quitSession, hw] at h
    | some u =>
      simp [quitSession, hw] at h
      subst h
      exact ⟨fun resp => rfl, rfl⟩
  · intro s resp r h hw
    simp [guardedRetrieveHtml, hw] at h

/-- C4, witness: start then quit succeeds and empties the handle, after which
`retrieve_html` and `quit` both fail with the state error. -/
theorem C4_witness :
    quitSession (startSession initSession) = .ok ⟨none⟩ ∧
    guardedRetrieveHtml ⟨none⟩ ⟨200, []⟩ = .error .stateError ∧
    quitSession ⟨none⟩ = .error .stateError :=
  ⟨rfl,
    (C4_session_guard.2.2.1 (startSession initSession) ⟨none⟩ rfl).1 ⟨200, []⟩,
    (C4_session_guard.2.2.1 (startSession initSession) ⟨none⟩ rfl).2⟩

/-- C5: `extract_links` returns exactly the `href` values of anchor elements
that begin with `http`, in document order, without deduplication (the
spec-side description `linksSpec`), and on the example document it returns
`["https://a.com", "http://b.com"]`. -/
theorem C5_links :
    (∀ html_body : Str, extract_links html_body = linksSpec html_body) ∧
    extract_links
        (str "<a href=\"https://a.com\">A</a><a href=\"/rel\">B</a><a href=\"http://b.com\">C</a>")
      = [str "https://a.com", str "http://b.com"] := by
  constructor
  · intro html_body
    unfold extract_links linksSpec
    exact collectLinks_eq (findAllDoc (str "a") (parseHtml html_body))
  · decide

/-- C6, counterexample: 201 is a success status with a body containing
neither `"<html>"` nor `"<body"`, yet `retrieve_html` does not return the
wrapped envelope (it returns `None`), because the wrap branch is only reached
on status exactly 200. -/
theorem C6_counterexample :
    requests_retrieve_html ⟨201, str "hi"⟩ = FetchOutcome.noneReturn ∧
    requests_retrieve_html ⟨201, str "hi"⟩ ≠ FetchOutcome.html (wrapEnvelope (str "hi")) := by
  constructor
  · rfl
  · decide

/-- C6, amended: on status exactly 200 (`requests.codes.ok`), a body that
contains neither `"<html>"` nor `"<body"` (the empty body included) is
returned wrapped in the minimal envelope, and a body containing one of those
substrings is returned verbatim. -/
theorem C6_amended :
    ∀ resp : HttpResponse, resp.status_code = 200 →
      ((containsSub (str "<html>") resp.text = false →
        containsSub (str "<body") resp.text = false →
        requests_retrieve_html resp = .html (wrapEnvelope resp.text)) ∧
      ((containsSub (str "<html>") resp.text = true ∨
        containsSub (str "<body") resp.text = true) →
        requests_retrieve_html resp = .html resp.text)) := by
  intro resp h200
  constructor
  · intro h1 h2
    simp [requests_retrieve_html, requestsCodesOk, h200, h1, h2]
  · intro h
    rcases h with h | h <;> simp [requests_retrieve_html, requestsCodesOk, h200, h]

/-- C6, witness for the amended theorem: status 200 with body `"hi"` is
wrapped, status 200 with body `"<body>z</body>"` comes back verbatim. -/
theorem C6_witness :
    requests_retrieve_html ⟨200, str "hi"⟩ = FetchOutcome.html (wrapEnvelope (str "hi")) ∧
    requests_retrieve_html ⟨200, str "<body>z</body>"⟩ = FetchOutcome.html (str "<body>z</body>") :=
  ⟨(C6_amended ⟨200, str "hi"⟩ rfl).1 (by decide) (by decide),
    (C6_amended ⟨200, str "<body>z</body>"⟩ rfl).2 (Or.inr (by decide))⟩

/-- C7: the whitespace-collapse step is idempotent — applying the three
collapse rules to their own output changes nothing. -/
theorem C7_idempotent (s : Str) : process_text (process_text s) = process_text s := by
  rw [process_text_eq_collapse, process_text_eq_collapse]
  unfold mapRuns
  rw [mapRunsGo_comp (fun n hn => le_refl 1)]

/-- C8, counterexample: the empty proxy string has no colon, so by the claim
construction should fail with the configuration error; but `""` is falsy in
Python, the format check is skipped, and construction succeeds. -/
theorem C8_counterexample :
    (pySplit ':' ([] : Str)).length ≠ 2 ∧
    baseScraperInit (str "ua") (str "1920,1080") ⟨none, none, true, true, some []⟩ =
      .ok ⟨some (str "ua"), some (str "1920,1080"), true, true, some [], none⟩ :=
  ⟨by decide, rfl⟩

/-- C8, amended: every non-empty proxy string that does not split into
exactly two `host:port` fields makes construction fail with the configuration
error before anything else happens; the empty proxy string is treated as
absent and accepted unvalidated. -/
theorem C8_amended :
    ∀ (a : InitArgs) (p : Str), a.proxy = some p → p ≠ [] →
      (pySplit ':' p).length ≠ 2 →
      ∀ uaS resS : Str, baseScraperInit uaS resS a = .error .configError := by
  intro a p hp hne hlen uaS resS
  have h : proxyInvalid a.proxy = true := by
    rw [hp]
    simp [proxyInvalid, hne, hlen]
  simp [baseScraperInit, h]

/-- C8, witness for the amended theorem at proxy `"badformat"`. -/
theorem C8_witness :
    baseScraperInit (str "ua") (str "r") ⟨none, none, true, true, some (str "badformat")⟩ =
      .error .configError :=
  C8_amended ⟨none, none, true, true, some (str "badformat")⟩ (str "badformat") rfl
    (by decide) (by decide) (str "ua") (str "r")

/-- C9: when the parse tree has no body element, `extract_text` returns
exactly the empty string. -/
theorem C9_no_body (html_body : Str)
    (h : findDoc (str "body") (parseHtml html_body) = none) :
    extract_text html_body = [] := by
  simp [extract_text, h]

/-- C9, witness: the bare text document `"hello"` parses without a body
element and extracts to the empty string. -/
theorem C9_witness : extract_text (str "hello") = [] :=
  C9_no_body (str "hello") rfl

/-- C10: when a randomize flag is true (its default), the corresponding
explicitly supplied identity field is overwritten during construction by the
sampled value; the explicit value survives exactly when the flag is false. -/
theorem C10_randomize :
    ∀ (a : InitArgs) (uaS resS : Str) (st : BaseScraperState),
      baseScraperInit uaS resS a = .ok st →
      (a.random_user_agent_flag = true → st.user_agent = some uaS) ∧
      (a.random_user_agent_flag = false → st.user_agent = a.user_agent) ∧
      (a.random_screen_resolution_flag = true → st.screen_resolution = some resS) ∧
      (a.random_screen_resolution_flag = false → st.screen_resolution = a.screen_resolution) := by
  intro a uaS resS st h
  by_cases hp : proxyInvalid a.proxy = true
  · simp [baseScraperInit, hp] at h
  · simp [baseScraperInit, hp] at h
    subst h
    cases hua : a.random_user_agent_flag <;>
      cases hsr : a.random_screen_resolution_flag <;>
        simp [hua, hsr, refresh_user_agent, refresh_screen_resolution]

/-- C10, witness: explicit user agent `"mine"` with the flag left true is
replaced by the sample `"agentX"`, while the explicit resolution `"640,480"`
with its flag false survives. -/
theorem C10_witness :
    (⟨some (str "agentX"), some (str "640,480"), true, false, none, none⟩
        : BaseScraperState).user_agent = some (str "agentX") ∧
    (⟨some (str "agentX"), some (str "640,480"), true, false, none, none⟩
        : BaseScraperState).screen_resolution = some (str "640,480") :=
  ⟨(C10_randomize ⟨some (str "mine"), some (str "640,480"), true, false, none⟩
      (str "agentX") (str "800,600") _ rfl).1 rfl,
    (C10_randomize ⟨some (str "mine"), some (str "640,480"), true, false, none⟩
      (str "agentX") (str "800,600") _ rfl).2.2.2 rfl⟩

end PyWebMiner
